import Mathlib

/-!
Verification development for the tonglema connectivity dashboard.

This file embeds the connectivity probe engine of the repository:

- `src/types.ts` : the data model (`ConnectivityStatus`, `CheckResult`).
- `src/services/networkService.ts` : `fetchUrl` (one bounded-timeout
  request) and `checkConnectivity` (favicon attempt, then root-URL
  fallback, with TIMEOUT/ERROR classification).
- `src/App.tsx` : the batch scheduler `handleCheckAll` and the single-site
  path `handleCheckSite`, with the single-flight guard, the PENDING
  placeholder installation, the refreshing-id set and the sequential
  batch loop of size 6.

Network and clock effects are modelled by explicit oracles: a probe
environment records the outcome the transport would deliver for each of
the two fetch attempts, whether URL parsing succeeds (and with which
origin), and the current time.  The embedded functions additionally
return the list of network calls they issue and the timer events they
perform, so that claims about calls never issued and timers never leaked
are expressible.
-/

namespace Tonglema

/-! Data model, from src/types.ts. -/

/-- Enumeration ConnectivityStatus from src/types.ts. -/
inductive ConnectivityStatus
  | IDLE
  | PENDING
  | SUCCESS
  | ERROR
  | TIMEOUT
deriving DecidableEq, Repr

/-- Record CheckResult from src/types.ts.  Latency is modelled as an
integer so that its non-negativity is a provable property rather than a
typing artefact. -/
structure CheckResult where
  siteId : String
  status : ConnectivityStatus
  latency : Int
  timestamp : Nat
deriving DecidableEq, Repr

/-- The part of SiteConfig from src/types.ts that the probe engine
reads: the identifier and the URL.  The remaining fields (names,
category, descriptions) are presentation data never read by the probe
or the scheduler. -/
structure SiteConfig where
  id : String
  url : String
deriving DecidableEq, Repr

/-! Probe primitive and site prober, from src/services/networkService.ts. -/

/-- Constant TIMEOUT_MS from src/services/networkService.ts. -/
def TIMEOUT_MS : Nat := 5000

/-- A value thrown by the transport (fetch rejection).  The code only
inspects its name field (checking for AbortError). -/
structure FetchErr where
  name : String
deriving DecidableEq, Repr

/-- Timer bookkeeping events performed by fetchUrl: arming the abort
timer with setTimeout and canceling it with clearTimeout. -/
inductive TimerEvent
  | armed
  | cleared
deriving DecidableEq, Repr

/-- Function fetchUrl from src/services/networkService.ts.  The
transport argument is the outcome of the awaited fetch call: the rounded
elapsed milliseconds on completion (performance.now is monotone, so the
rounded difference is a natural number), or the thrown value on
rejection.  The source arms a timeout timer before the fetch, clears it
on the success path before returning the elapsed time, and clears it in
the catch block before rethrowing; the returned event list records
these timer operations.  The url, method and timeoutMs arguments are the
request parameters of the issued call. -/
def fetchUrl (url method : String) (timeoutMs : Nat)
    (transport : Except FetchErr Nat) : Except FetchErr Nat × List TimerEvent :=
  match transport with
  | .ok ms => (.ok ms, [.armed, .cleared])
  | .error e => (.error e, [.armed, .cleared])

/-- One network call issued by the site prober, described by its request
parameters. -/
structure FetchCall where
  url : String
  method : String
  timeoutMs : Nat
deriving DecidableEq, Repr

/-- The oracle for one run of checkConnectivity: the origin produced by
parsing the site URL with new URL (none when the constructor throws),
the transport outcome of the first fetch attempt, the transport outcome
of the second fetch attempt (consulted only if the second call is
issued), and the value of Date.now. -/
structure ProbeEnv where
  origin : Option String
  fetch1 : Except FetchErr Nat
  fetch2 : Except FetchErr Nat
  now : Nat

/-- Function checkConnectivity from src/services/networkService.ts.
Derives the favicon URL (falling back to the raw URL when parsing
fails), issues the favicon GET with a 4000 ms budget, on failure issues
the root-URL GET with the full TIMEOUT_MS budget, and classifies the
outcome.  Returns the CheckResult together with the list of network
calls issued. -/
def checkConnectivity (siteId url : String) (env : ProbeEnv) :
    CheckResult × List FetchCall :=
  let faviconUrl :=
    match env.origin with
    | some o => o ++ "/favicon.ico"
    | none => url
  match (fetchUrl faviconUrl "GET" 4000 env.fetch1).1 with
  | .ok ms =>
      ({ siteId := siteId, status := .SUCCESS, latency := (ms : Int),
         timestamp := env.now },
       [{ url := faviconUrl, method := "GET", timeoutMs := 4000 }])
  | .error err =>
      match (fetchUrl url "GET" TIMEOUT_MS env.fetch2).1 with
      | .ok ms =>
          ({ siteId := siteId, status := .SUCCESS, latency := (ms : Int),
             timestamp := env.now },
           [{ url := faviconUrl, method := "GET", timeoutMs := 4000 },
            { url := url, method := "GET", timeoutMs := TIMEOUT_MS }])
      | .error fallbackErr =>
          ({ siteId := siteId,
             status :=
               if err.name = "AbortError" ∨ fallbackErr.name = "AbortError"
               then ConnectivityStatus.TIMEOUT else ConnectivityStatus.ERROR,
             latency := 0, timestamp := env.now },
           [{ url := faviconUrl, method := "GET", timeoutMs := 4000 },
            { url := url, method := "GET", timeoutMs := TIMEOUT_MS }])

/-- The CheckResult produced by one run of checkConnectivity. -/
def probeResult (siteId url : String) (env : ProbeEnv) : CheckResult :=
  (checkConnectivity siteId url env).1

/-- The network calls issued by one run of checkConnectivity. -/
def probeCalls (siteId url : String) (env : ProbeEnv) : List FetchCall :=
  (checkConnectivity siteId url env).2

/-! Batch scheduler, from src/App.tsx. -/

/-- The result store (CheckResultMap in src/types.ts): a JavaScript
object keyed by siteId.  Modelled as an association list in property
order; the key-uniqueness of object properties is proved as an
invariant below rather than baked into the representation. -/
abbrev Store : Type := List (String × CheckResult)

/-- Property lookup on the result store: results[key]. -/
def objGet (m : Store) (key : String) : Option CheckResult :=
  match m with
  | [] => none
  | (k, v) :: rest => if k = key then some v else objGet rest key

/-- Property assignment on the result store: next[key] = v.  A present
key has its value replaced in place; an absent key is appended, as in
JavaScript object semantics. -/
def objSet (m : Store) (key : String) (v : CheckResult) : Store :=
  match m with
  | [] => [(key, v)]
  | (k, w) :: rest =>
      if k = key then (key, v) :: rest else (k, w) :: objSet rest key v

/-- The PENDING placeholder installed for a site with no existing
result: status PENDING, latency 0, timestamp Date.now. -/
def pendingPlaceholder (sid : String) (now : Nat) : CheckResult :=
  { siteId := sid, status := .PENDING, latency := 0, timestamp := now }

/-- One step of the placeholder installation in src/App.tsx: set the
PENDING placeholder only when the store has no entry for the site
(the branch if (!next[site.id]) in handleCheckAll, and the identical
conditional update in handleCheckSite). -/
def installPendingOne (m : Store) (sid : String) (now : Nat) : Store :=
  if (objGet m sid).isNone then objSet m sid (pendingPlaceholder sid now) else m

/-- The placeholder installation loop of handleCheckAll: for every site,
install a PENDING placeholder only if no result exists yet. -/
def installPending (m : Store) (sites : List SiteConfig) (now : Nat) : Store :=
  sites.foldl (fun acc site => installPendingOne acc site.id now) m

/-- Merging one batch of results into the store:
batchResults.forEach(res => next[res.siteId] = res). -/
def mergeBatch (m : Store) (rs : List CheckResult) : Store :=
  rs.foldl (fun acc r => objSet acc r.siteId r) m

/-- Deleting a list of ids from the refreshing-id set
(batch.forEach(s => next.delete(s.id))).  The set is modelled as a
list of ids. -/
def removeIds (refreshing ids : List String) : List String :=
  refreshing.filter (fun x => ¬ ids.contains x)

/-- Constant batchSize from handleCheckAll in src/App.tsx. -/
def batchSize : Nat := 6

/-- The batch decomposition performed by the loop
for (let i = 0; i < SITES.length; i += batchSize)
with batch = SITES.slice(i, i + batchSize): the site list cut into
consecutive chunks of batchSize, the last one possibly shorter. -/
def sliceBatches : List SiteConfig → List (List SiteConfig)
  | [] => []
  | x :: xs => (x :: xs).take batchSize :: sliceBatches (xs.drop (batchSize - 1))
termination_by l => l.length
decreasing_by simp; omega

/-- Observable scheduler events during a run of handleCheckAll, in
order: a batch of probes dispatched concurrently, a batch of results
merged into the result store, a batch of ids removed from the
refreshing set. -/
inductive RunEvent
  | dispatch (ids : List String)
  | mergeResults (rs : List CheckResult)
  | clearRefreshing (ids : List String)
deriving DecidableEq, Repr

/-- Scheduler state owned by the App component: the result store, the
refreshing-id set, the isCheckingRef guard flag, the isChecking display
flag, and the last-checked timestamp. -/
structure AppState where
  results : Store
  refreshingIds : List String
  isCheckingRef : Bool
  isChecking : Bool
  lastChecked : Option Nat
deriving Repr

/-- The batch loop of handleCheckAll: for each batch in order, dispatch
every probe in the batch concurrently, await Promise.all, merge the
returned results into the store, then delete the batch ids from the
refreshing set, and only then move to the next batch.  The probe
argument gives the CheckResult each dispatched probe resolves to; the
event trace records the dispatch, merge and removal steps in execution
order. -/
def runBatches (probe : SiteConfig → CheckResult) :
    List (List SiteConfig) → AppState → AppState × List RunEvent
  | [], st => (st, [])
  | b :: rest, st =>
      let rs := b.map probe
      let ids := b.map (fun s => s.id)
      let st1 : AppState :=
        { st with results := mergeBatch st.results rs,
                  refreshingIds := removeIds st.refreshingIds ids }
      let res := runBatches probe rest st1
      (res.1, .dispatch ids :: .mergeResults rs :: .clearRefreshing ids :: res.2)

/-- Function handleCheckAll from src/App.tsx.  If the isCheckingRef
guard is set, return immediately with no effect and no events.
Otherwise set the guard and the isChecking flag, record Date.now as
lastChecked, mark every site as refreshing, install PENDING
placeholders for sites with no existing result, run the batch loop,
and finally clear the guard, the flag and the refreshing set.
(The concurrent location refresh it also fires touches no scheduler
state and is out of scope.) -/
def handleCheckAll (sites : List SiteConfig) (probe : SiteConfig → CheckResult)
    (now : Nat) (st : AppState) : AppState × List RunEvent :=
  if st.isCheckingRef then (st, [])
  else
    let st1 : AppState :=
      { st with isCheckingRef := true, isChecking := true,
                lastChecked := some now,
                refreshingIds := sites.map (fun s => s.id) }
    let st2 : AppState := { st1 with results := installPending st1.results sites now }
    let res := runBatches probe (sliceBatches sites) st2
    ({ res.1 with isCheckingRef := false, isChecking := false,
                  refreshingIds := [] }, res.2)

/-- Function handleCheckSite from src/App.tsx: add the site id to the
refreshing set, install a PENDING placeholder only if no result exists,
await the probe, merge its result, and remove the id from the
refreshing set. -/
def handleCheckSite (site : SiteConfig) (probe : SiteConfig → CheckResult)
    (now : Nat) (st : AppState) : AppState :=
  let st1 : AppState :=
    { st with refreshingIds :=
        if st.refreshingIds.contains site.id then st.refreshingIds
        else site.id :: st.refreshingIds }
  let st2 : AppState := { st1 with results := installPendingOne st1.results site.id now }
  let st3 : AppState := { st2 with results := objSet st2.results site.id (probe site) }
  { st3 with refreshingIds := removeIds st3.refreshingIds [site.id] }

/-- The probe function the App component passes to the scheduler: one
checkConnectivity run per site, under a per-site oracle. -/
def probeOf (env : SiteConfig → ProbeEnv) (site : SiteConfig) : CheckResult :=
  probeResult site.id site.url (env site)

/-- The sequence of result-store states produced by the batch loop, one
per batch merge, starting from a given store. -/
def batchStores (probe : SiteConfig → CheckResult) :
    List (List SiteConfig) → Store → List Store
  | [], _ => []
  | b :: rest, m =>
      let m1 := mergeBatch m (b.map probe)
      m1 :: batchStores probe rest m1

/-- The canonical event block of one batch iteration of handleCheckAll:
dispatch the whole batch, merge its results, remove its ids from the
refreshing set. -/
def batchEvents (probe : SiteConfig → CheckResult) (b : List SiteConfig) :
    List RunEvent :=
  [.dispatch (b.map (fun s => s.id)),
   .mergeResults (b.map probe),
   .clearRefreshing (b.map (fun s => s.id))]

/-- Number of probes in flight after a trace of scheduler events: a
dispatch puts its batch in flight, a merge happens only once the whole
batch has resolved. -/
def inflightStep (acc : Nat) : RunEvent → Nat
  | .dispatch ids => acc + ids.length
  | .mergeResults rs => acc - rs.length
  | .clearRefreshing _ => acc

/-- Probes unresolved after processing a prefix of the event trace. -/
def inflightAfter (tr : List RunEvent) : Nat :=
  tr.foldl inflightStep 0

/-- A CheckResult respecting the spec invariants: non-negative latency,
and latency 0 when the status is ERROR or TIMEOUT. -/
def ValidResult (r : CheckResult) : Prop :=
  0 ≤ r.latency ∧
    ((r.status = .ERROR ∨ r.status = .TIMEOUT) → r.latency = 0)

instance (r : CheckResult) : Decidable (ValidResult r) := by
  unfold ValidResult; infer_instance

/-- The result-store invariant: object keys are unique (at most one
CheckResult per siteId), every entry is stored under its own siteId,
and every stored result is valid. -/
def StoreInv (m : Store) : Prop :=
  (m.map Prod.fst).Nodup ∧ ∀ p ∈ m, p.2.siteId = p.1 ∧ ValidResult p.2

instance (m : Store) : Decidable (StoreInv m) := by
  unfold StoreInv; infer_instance

theorem fetchUrl_fst (url method : String) (timeoutMs : Nat)
    (transport : Except FetchErr Nat) :
    (fetchUrl url method timeoutMs transport).1 = transport := by
  cases transport <;> rfl

/-- Claim C1: for every site where both probe attempts fail,
checkConnectivity returns a CheckResult whose status is TIMEOUT if at
least one of the two failures was a timeout/abort condition (an
AbortError) and ERROR otherwise, with latency 0 and timestamp now. -/
theorem both_attempts_fail_classification (siteId url : String)
    (env : ProbeEnv) (e1 e2 : FetchErr)
    (h1 : env.fetch1 = .error e1) (h2 : env.fetch2 = .error e2) :
    (probeResult siteId url env).latency = 0 ∧
    (probeResult siteId url env).status =
      (if e1.name = "AbortError" ∨ e2.name = "AbortError"
       then ConnectivityStatus.TIMEOUT else ConnectivityStatus.ERROR) ∧
    (probeResult siteId url env).timestamp = env.now := by
  simp [probeResult, checkConnectivity, fetchUrl_fst, h1, h2]

/-- Witness for C1 at a concrete input: first attempt aborted, second
failed with a plain network error, so the final status is TIMEOUT with
latency 0. -/
theorem both_attempts_fail_classification_witness :
    (probeResult "google" "https://google.com"
        ⟨some "https://google.com", .error ⟨"AbortError"⟩,
         .error ⟨"TypeError"⟩, 42⟩).latency = 0 ∧
    (probeResult "google" "https://google.com"
        ⟨some "https://google.com", .error ⟨"AbortError"⟩,
         .error ⟨"TypeError"⟩, 42⟩).status = ConnectivityStatus.TIMEOUT := by
  have h := both_attempts_fail_classification "google" "https://google.com"
    ⟨some "https://google.com", .error ⟨"AbortError"⟩, .error ⟨"TypeError"⟩, 42⟩
    ⟨"AbortError"⟩ ⟨"TypeError"⟩ rfl rfl
  exact ⟨h.1, by rw [h.2.1]; decide⟩

/-- Claim C2: if the favicon attempt succeeds, checkConnectivity
returns SUCCESS with that attempt's elapsed time and issues no second
network call (exactly one call, the 4000 ms favicon attempt); if the
favicon attempt fails and the root attempt succeeds, it returns SUCCESS
with the root attempt's elapsed time only. -/
theorem favicon_then_root_success (siteId1 url1 siteId2 url2 : String)
    (env1 env2 : ProbeEnv) (ms1 ms2 : Nat) (e : FetchErr)
    (h1 : env1.fetch1 = .ok ms1)
    (h2 : env2.fetch1 = .error e) (h3 : env2.fetch2 = .ok ms2) :
    ((probeResult siteId1 url1 env1).status = ConnectivityStatus.SUCCESS ∧
     (probeResult siteId1 url1 env1).latency = (ms1 : Int) ∧
     (probeCalls siteId1 url1 env1).length = 1 ∧
     (∀ c ∈ probeCalls siteId1 url1 env1, c.timeoutMs = 4000)) ∧
    ((probeResult siteId2 url2 env2).status = ConnectivityStatus.SUCCESS ∧
     (probeResult siteId2 url2 env2).latency = (ms2 : Int) ∧
     (probeCalls siteId2 url2 env2).length = 2) := by
  constructor
  · simp [probeResult, probeCalls, checkConnectivity, fetchUrl_fst, h1]
  · simp [probeResult, probeCalls, checkConnectivity, fetchUrl_fst, h2, h3]

/-- Witness for C2 at concrete inputs: a favicon success at 120 ms, and
a favicon failure followed by a root success at 300 ms. -/
theorem favicon_then_root_success_witness :
    (probeResult "a" "https://a.com"
        ⟨some "https://a.com", .ok 120, .ok 999, 7⟩).latency = 120 ∧
    (probeCalls "a" "https://a.com"
        ⟨some "https://a.com", .ok 120, .ok 999, 7⟩).length = 1 ∧
    (probeResult "c" "https://c.com"
        ⟨some "https://c.com", .error ⟨"TypeError"⟩, .ok 300, 7⟩).latency = 300 := by
  have h := favicon_then_root_success "a" "https://a.com" "c" "https://c.com"
    ⟨some "https://a.com", .ok 120, .ok 999, 7⟩
    ⟨some "https://c.com", .error ⟨"TypeError"⟩, .ok 300, 7⟩
    120 300 ⟨"TypeError"⟩ rfl rfl rfl
  exact ⟨h.1.2.1, h.1.2.2.1, h.2.2.1⟩

/-- Claim C3: checkConnectivity never throws outward; for every input
and every transport behaviour it resolves to a populated CheckResult
carrying the requested siteId, the current timestamp, and one of the
terminal statuses SUCCESS, TIMEOUT or ERROR. -/
theorem checkConnectivity_total (siteId url : String) (env : ProbeEnv) :
    (probeResult siteId url env).siteId = siteId ∧
    (probeResult siteId url env).timestamp = env.now ∧
    ((probeResult siteId url env).status = ConnectivityStatus.SUCCESS ∨
     (probeResult siteId url env).status = ConnectivityStatus.TIMEOUT ∨
     (probeResult siteId url env).status = ConnectivityStatus.ERROR) := by
  rcases env with ⟨o, f1, f2, n⟩
  cases f1 <;> cases f2 <;>
    simp [probeResult, checkConnectivity, fetchUrl] <;> tauto

/-- Claim C8: in fetchUrl, on completion of the request, whether it
succeeds or fails, the armed timeout timer is always canceled: every
trace contains a clearTimeout and arms exactly as many timers as it
clears. -/
theorem fetchUrl_timer_always_canceled (url method : String)
    (timeoutMs : Nat) (transport : Except FetchErr Nat) :
    (fetchUrl url method timeoutMs transport).2.count TimerEvent.cleared =
      (fetchUrl url method timeoutMs transport).2.count TimerEvent.armed ∧
    TimerEvent.cleared ∈ (fetchUrl url method timeoutMs transport).2 := by
  cases transport <;> simp [fetchUrl]

/-- Claim C9: when URL parsing fails, checkConnectivity degrades
gracefully: the favicon-derivation step falls back to the raw site URL
as the target of the first probe attempt, and the probe still resolves
to a CheckResult with a terminal status. -/
theorem url_parse_failure_graceful (siteId url : String) (env : ProbeEnv)
    (h : env.origin = none) :
    (probeCalls siteId url env).head? =
      some { url := url, method := "GET", timeoutMs := 4000 } ∧
    ((probeResult siteId url env).status = ConnectivityStatus.SUCCESS ∨
     (probeResult siteId url env).status = ConnectivityStatus.TIMEOUT ∨
     (probeResult siteId url env).status = ConnectivityStatus.ERROR) := by
  rcases env with ⟨o, f1, f2, n⟩
  simp only [ProbeEnv.origin] at h
  subst h
  cases f1 <;> cases f2 <;>
    simp [probeResult, probeCalls, checkConnectivity, fetchUrl] <;> tauto

/-- Witness for C9 at a concrete input: an unparsable URL whose probe
still succeeds, with the first call aimed at the raw URL. -/
theorem url_parse_failure_graceful_witness :
    (probeCalls "x" "not a url" ⟨none, .ok 50, .ok 60, 9⟩).head? =
      some { url := "not a url", method := "GET", timeoutMs := 4000 } ∧
    ((probeResult "x" "not a url" ⟨none, .ok 50, .ok 60, 9⟩).status =
        ConnectivityStatus.SUCCESS ∨
     (probeResult "x" "not a url" ⟨none, .ok 50, .ok 60, 9⟩).status =
        ConnectivityStatus.TIMEOUT ∨
     (probeResult "x" "not a url" ⟨none, .ok 50, .ok 60, 9⟩).status =
        ConnectivityStatus.ERROR) :=
  url_parse_failure_graceful "x" "not a url" ⟨none, .ok 50, .ok 60, 9⟩ rfl

/-- Claim C10: when URL parsing fails and the first attempt fails, the
two issued probe attempts target the identical raw URL string with the
same GET method, differing only in the timeout budget: 4000 ms for the
first and TIMEOUT_MS = 5000 ms for the fallback. -/
theorem url_parse_failure_identical_attempts (siteId url : String)
    (env : ProbeEnv) (e : FetchErr)
    (h : env.origin = none) (h1 : env.fetch1 = .error e) :
    probeCalls siteId url env =
      [{ url := url, method := "GET", timeoutMs := 4000 },
       { url := url, method := "GET", timeoutMs := TIMEOUT_MS }] ∧
    TIMEOUT_MS = 5000 := by
  rcases env with ⟨o, f1, f2, n⟩
  simp only [ProbeEnv.origin, ProbeEnv.fetch1] at h h1
  subst h h1
  cases f2 <;> simp [probeCalls, checkConnectivity, fetchUrl, TIMEOUT_MS]

/-- Witness for C10 at a concrete input: an unparsable URL whose first
attempt fails, so both calls aim at the raw URL with budgets 4000 and
5000. -/
theorem url_parse_failure_identical_attempts_witness :
    probeCalls "x" "::bad::" ⟨none, .error ⟨"TypeError"⟩, .ok 7, 0⟩ =
      [{ url := "::bad::", method := "GET", timeoutMs := 4000 },
       { url := "::bad::", method := "GET", timeoutMs := TIMEOUT_MS }] ∧
    TIMEOUT_MS = 5000 :=
  url_parse_failure_identical_attempts "x" "::bad::"
    ⟨none, .error ⟨"TypeError"⟩, .ok 7, 0⟩ ⟨"TypeError"⟩ rfl rfl

/-! Helper lemmas about the batch decomposition and the batch loop. -/

theorem sliceBatches_flatten (l : List SiteConfig) :
    (sliceBatches l).flatten = l := by
  induction l using sliceBatches.induct with
  | case1 => simp [sliceBatches]
  | case2 x xs ih =>
      rw [sliceBatches, List.flatten_cons, ih]
      show x :: (List.take 5 xs ++ List.drop 5 xs) = x :: xs
      rw [List.take_append_drop]

theorem sliceBatches_mem_length (b : List SiteConfig) (l : List SiteConfig)
    (h : b ∈ sliceBatches l) : b.length ≤ batchSize := by
  induction l using sliceBatches.induct with
  | case1 => simp [sliceBatches] at h
  | case2 x xs ih =>
      rw [sliceBatches] at h
      rcases List.mem_cons.1 h with h1 | h1
      · subst h1; exact List.length_take_le _ _
      · exact ih h1

theorem sliceBatches_mem_site (site : SiteConfig) (b : List SiteConfig)
    (l : List SiteConfig) (hb : b ∈ sliceBatches l) (hs : site ∈ b) :
    site ∈ l := by
  have : site ∈ (sliceBatches l).flatten := List.mem_flatten.2 ⟨b, hb, hs⟩
  rwa [sliceBatches_flatten] at this

theorem runBatches_trace (probe : SiteConfig → CheckResult)
    (bs : List (List SiteConfig)) (st : AppState) :
    (runBatches probe bs st).2 = (bs.map (batchEvents probe)).flatten := by
  induction bs generalizing st with
  | nil => simp [runBatches]
  | cons b rest ih => simp [runBatches, batchEvents, ih]

theorem runBatches_results (probe : SiteConfig → CheckResult)
    (bs : List (List SiteConfig)) (st : AppState) :
    (runBatches probe bs st).1.results =
      bs.foldl (fun m b => mergeBatch m (b.map probe)) st.results := by
  induction bs generalizing st with
  | nil => rfl
  | cons b rest ih => simp [runBatches, ih]

theorem foldl_merge_mem (probe : SiteConfig → CheckResult)
    (bs : List (List SiteConfig)) (m : Store) :
    bs.foldl (fun acc b => mergeBatch acc (b.map probe)) m ∈
      m :: batchStores probe bs m := by
  induction bs generalizing m with
  | nil => simp
  | cons b rest ih =>
      simp only [List.foldl_cons, batchStores]
      exact List.mem_cons_of_mem m (ih (mergeBatch m (b.map probe)))

theorem inflight_flatten_le (probe : SiteConfig → CheckResult)
    (bs : List (List SiteConfig))
    (h : ∀ b ∈ bs, b.length ≤ batchSize) (n : Nat) :
    inflightAfter (((bs.map (batchEvents probe)).flatten).take n) ≤ batchSize := by
  induction bs generalizing n with
  | nil => simp [inflightAfter]
  | cons b rest ih =>
      have hb : b.length ≤ batchSize := h b (List.mem_cons_self b rest)
      have hrest : ∀ x ∈ rest, x.length ≤ batchSize :=
        fun x hx => h x (List.mem_cons_of_mem b hx)
      match n with
      | 0 => simp [inflightAfter]
      | 1 =>
          simp [batchEvents, inflightAfter, inflightStep]
          exact hb
      | 2 =>
          simp [batchEvents, inflightAfter, inflightStep]
      | (n + 3) =>
          simp only [List.map_cons, List.flatten_cons, batchEvents,
            List.cons_append, List.nil_append, List.take_succ_cons,
            inflightAfter, List.foldl_cons, inflightStep]
          simp only [List.length_map, Nat.add_sub_cancel_left, Nat.zero_add,
            Nat.sub_self]
          exact ih hrest n

/-! Helper lemmas about the result store operations. -/

theorem objGet_objSet_self (m : Store) (k : String) (v : CheckResult) :
    objGet (objSet m k v) k = some v := by
  induction m with
  | nil => simp [objSet, objGet]
  | cons p rest ih =>
      obtain ⟨k1, v1⟩ := p
      by_cases h : k1 = k <;> simp [objSet, objGet, h, ih]

theorem objGet_objSet_of_ne (m : Store) (k s : String) (v : CheckResult)
    (h : s ≠ k) : objGet (objSet m k v) s = objGet m s := by
  have hks : ¬ k = s := fun he => h he.symm
  induction m with
  | nil => simp [objSet, objGet, hks]
  | cons p rest ih =>
      obtain ⟨k1, v1⟩ := p
      by_cases h1 : k1 = k
      · subst h1
        simp [objSet, objGet, hks]
      · simp only [objSet, if_neg h1, objGet]
        by_cases h2 : k1 = s
        · simp [h2]
        · simp [h2, ih]

theorem objSet_mem (m : Store) (k : String) (v : CheckResult)
    (p : String × CheckResult) (h : p ∈ objSet m k v) :
    p ∈ m ∨ p = (k, v) := by
  induction m with
  | nil => simp [objSet] at h; right; exact h
  | cons q rest ih =>
      obtain ⟨k1, v1⟩ := q
      by_cases h1 : k1 = k
      · subst h1
        simp only [objSet, if_pos rfl] at h
        rcases List.mem_cons.1 h with h2 | h2
        · right; exact h2
        · left; exact List.mem_cons_of_mem _ h2
      · simp only [objSet, if_neg h1] at h
        rcases List.mem_cons.1 h with h2 | h2
        · left; subst h2; exact List.mem_cons_self _ _
        · rcases ih h2 with h3 | h3
          · left; exact List.mem_cons_of_mem _ h3
          · right; exact h3

theorem objSet_keys (m : Store) (k : String) (v : CheckResult) :
    (objSet m k v).map Prod.fst =
      if k ∈ m.map Prod.fst then m.map Prod.fst
      else m.map Prod.fst ++ [k] := by
  induction m with
  | nil => simp [objSet]
  | cons p rest ih =>
      obtain ⟨k1, v1⟩ := p
      by_cases h1 : k1 = k
      · subst h1; simp [objSet]
      · have h1' : ¬ k = k1 := fun he => h1 he.symm
        by_cases h2 : k ∈ rest.map Prod.fst <;>
          simp [objSet, h1, h1', h2, ih]

theorem objSet_nodup_keys (m : Store) (k : String) (v : CheckResult)
    (h : (m.map Prod.fst).Nodup) : ((objSet m k v).map Prod.fst).Nodup := by
  rw [objSet_keys]
  split
  · exact h
  · next hk =>
      rw [List.nodup_append]
      exact ⟨h, List.nodup_singleton k, by simpa using hk⟩

theorem StoreInv_objSet (m : Store) (k : String) (v : CheckResult)
    (hm : StoreInv m) (hk : v.siteId = k) (hv : ValidResult v) :
    StoreInv (objSet m k v) := by
  refine ⟨objSet_nodup_keys m k v hm.1, fun p hp => ?_⟩
  rcases objSet_mem m k v p hp with h1 | h1
  · exact hm.2 p h1
  · subst h1; exact ⟨hk, hv⟩

theorem objGet_installPendingOne (m : Store) (k s : String) (now : Nat)
    (r : CheckResult) (h : objGet m s = some r) :
    objGet (installPendingOne m k now) s = some r := by
  unfold installPendingOne
  split
  · next hnone =>
      have hks : s ≠ k := by
        intro he
        subst he
        rw [h] at hnone
        simp at hnone
      rw [objGet_objSet_of_ne m k s _ hks]
      exact h
  · exact h

theorem objGet_installPending (m : Store) (sites : List SiteConfig)
    (now : Nat) (s : String) (r : CheckResult) (h : objGet m s = some r) :
    objGet (installPending m sites now) s = some r := by
  induction sites generalizing m with
  | nil => exact h
  | cons site rest ih =>
      exact ih (installPendingOne m site.id now)
        (objGet_installPendingOne m site.id s now r h)

theorem installPending_changes (m : Store) (sites : List SiteConfig)
    (now : Nat) (s : String) :
    objGet (installPending m sites now) s = objGet m s ∨
    (objGet m s = none ∧
      objGet (installPending m sites now) s = some (pendingPlaceholder s now)) := by
  induction sites generalizing m with
  | nil => left; rfl
  | cons site rest ih =>
      have hunf : installPending m (site :: rest) now =
          installPending (installPendingOne m site.id now) rest now := rfl
      have step : objGet (installPendingOne m site.id now) s = objGet m s ∨
          (objGet m s = none ∧
            objGet (installPendingOne m site.id now) s =
              some (pendingPlaceholder s now)) := by
        unfold installPendingOne
        split
        · next hnone =>
            by_cases he : site.id = s
            · subst he
              right
              refine ⟨Option.isNone_iff_eq_none.1 hnone, ?_⟩
              exact objGet_objSet_self m site.id _
            · left
              exact objGet_objSet_of_ne m site.id s _ fun h2 => he h2.symm
        · left; rfl
      rw [hunf]
      rcases ih (installPendingOne m site.id now) with h1 | h1
      · rcases step with h2 | h2
        · left; rw [h1, h2]
        · right; exact ⟨h2.1, by rw [h1, h2.2]⟩
      · right
        refine ⟨?_, h1.2⟩
        cases hms : objGet m s with
        | none => rfl
        | some r =>
            exfalso
            have := objGet_installPendingOne m site.id s now r hms
            rw [this] at h1
            simp at h1

theorem mergeBatch_lookup (m : Store) (rs : List CheckResult) (s : String) :
    objGet (mergeBatch m rs) s = objGet m s ∨
    ∃ r ∈ rs, r.siteId = s ∧ objGet (mergeBatch m rs) s = some r := by
  induction rs generalizing m with
  | nil => left; rfl
  | cons r rest ih =>
      have hunf : mergeBatch m (r :: rest) = mergeBatch (objSet m r.siteId r) rest := rfl
      rw [hunf]
      rcases ih (objSet m r.siteId r) with h1 | h1
      · by_cases he : r.siteId = s
        · right
          refine ⟨r, List.mem_cons_self _ _, he, ?_⟩
          rw [h1, ← he]
          exact objGet_objSet_self m r.siteId r
        · left
          rw [h1]
          exact objGet_objSet_of_ne m r.siteId s r fun h2 => he h2.symm
      · right
        obtain ⟨r', hr', hs', heq⟩ := h1
        exact ⟨r', List.mem_cons_of_mem _ hr', hs', heq⟩

theorem probeResult_valid (siteId url : String) (env : ProbeEnv) :
    (probeResult siteId url env).siteId = siteId ∧
    ValidResult (probeResult siteId url env) ∧
    (probeResult siteId url env).status ≠ ConnectivityStatus.PENDING := by
  rcases env with ⟨o, f1, f2, n⟩
  cases f1 <;> cases f2 <;>
    simp [probeResult, checkConnectivity, fetchUrl, ValidResult] <;>
    split <;> simp

theorem probeOf_siteId (env : SiteConfig → ProbeEnv) (site : SiteConfig) :
    (probeOf env site).siteId = site.id :=
  (probeResult_valid site.id site.url (env site)).1

theorem probeOf_valid (env : SiteConfig → ProbeEnv) (site : SiteConfig) :
    ValidResult (probeOf env site) :=
  (probeResult_valid site.id site.url (env site)).2.1

theorem probeOf_ne_pending (env : SiteConfig → ProbeEnv) (site : SiteConfig) :
    (probeOf env site).status ≠ ConnectivityStatus.PENDING :=
  (probeResult_valid site.id site.url (env site)).2.2

theorem StoreInv_installPendingOne (m : Store) (k : String) (now : Nat)
    (h : StoreInv m) : StoreInv (installPendingOne m k now) := by
  unfold installPendingOne
  split
  · exact StoreInv_objSet m k _ h rfl (by simp [ValidResult, pendingPlaceholder])
  · exact h

theorem StoreInv_installPending (m : Store) (sites : List SiteConfig)
    (now : Nat) (h : StoreInv m) : StoreInv (installPending m sites now) := by
  induction sites generalizing m with
  | nil => exact h
  | cons site rest ih =>
      exact ih (installPendingOne m site.id now)
        (StoreInv_installPendingOne m site.id now h)

theorem StoreInv_mergeBatch (m : Store) (rs : List CheckResult)
    (h : StoreInv m) (hv : ∀ r ∈ rs, ValidResult r) :
    StoreInv (mergeBatch m rs) := by
  induction rs generalizing m with
  | nil => exact h
  | cons r rest ih =>
      exact ih (objSet m r.siteId r)
        (StoreInv_objSet m r.siteId r h rfl (hv r (List.mem_cons_self _ _)))
        (fun r' hr' => hv r' (List.mem_cons_of_mem _ hr'))

theorem StoreInv_runBatches (probe : SiteConfig → CheckResult)
    (hprobe : ∀ site, ValidResult (probe site))
    (bs : List (List SiteConfig)) (st : AppState)
    (h : StoreInv st.results) : StoreInv (runBatches probe bs st).1.results := by
  induction bs generalizing st with
  | nil => exact h
  | cons b rest ih =>
      refine ih _ ?_
      refine StoreInv_mergeBatch st.results (b.map probe) h ?_
      intro r hr
      obtain ⟨site, _, hsite⟩ := List.mem_map.1 hr
      rw [← hsite]
      exact hprobe site

theorem batchStores_keeps (env : SiteConfig → ProbeEnv)
    (sites : List SiteConfig) (bs : List (List SiteConfig))
    (hbs : ∀ b ∈ bs, ∀ x ∈ b, x ∈ sites) (m : Store) (sid : String)
    (r : CheckResult)
    (hg : objGet m sid = some r ∨
      ∃ site ∈ sites, site.id = sid ∧ objGet m sid = some (probeOf env site)) :
    ∀ σ ∈ batchStores (probeOf env) bs m,
      objGet σ sid = some r ∨
      ∃ site ∈ sites, site.id = sid ∧ objGet σ sid = some (probeOf env site) := by
  induction bs generalizing m with
  | nil => simp [batchStores]
  | cons b rest ih =>
      intro σ hσ
      have hg1 : objGet (mergeBatch m (b.map (probeOf env))) sid = some r ∨
          ∃ site ∈ sites, site.id = sid ∧
            objGet (mergeBatch m (b.map (probeOf env))) sid =
              some (probeOf env site) := by
        rcases mergeBatch_lookup m (b.map (probeOf env)) sid with h1 | h1
        · rw [h1]; exact hg
        · obtain ⟨r', hr', hsid, heq⟩ := h1
          obtain ⟨x, hx, hxr⟩ := List.mem_map.1 hr'
          right
          refine ⟨x, hbs b (List.mem_cons_self _ _) x hx, ?_, ?_⟩
          · rw [← probeOf_siteId env x, hxr]; exact hsid
          · rw [heq, ← hxr]
      rcases List.mem_cons.1 hσ with h2 | h2
      · subst h2; exact hg1
      · exact ih (fun b' hb' => hbs b' (List.mem_cons_of_mem _ hb'))
          (mergeBatch m (b.map (probeOf env))) hg1 σ h2

/-- Claim C4: invoking handleCheckAll while a run is already in
progress (the isCheckingRef guard is set) is a no-op: the state is
returned unchanged, including the result store, the refreshing set and
the last-checked timestamp, and no scheduler events occur, so no probes
are dispatched and no two full runs overlap. -/
theorem runAll_single_flight (sites : List SiteConfig)
    (probe : SiteConfig → CheckResult) (now : Nat) (st : AppState)
    (h : st.isCheckingRef = true) :
    handleCheckAll sites probe now st = (st, []) := by
  simp [handleCheckAll, h]

/-- Witness for C4 at a concrete input: with the guard set, a run over
one site changes nothing and emits no events. -/
theorem runAll_single_flight_witness :
    handleCheckAll [{ id := "g", url := "https://g.com" }]
        (fun s => pendingPlaceholder s.id 0) 5
        { results := [], refreshingIds := [], isCheckingRef := true,
          isChecking := true, lastChecked := none } =
      ({ results := [], refreshingIds := [], isCheckingRef := true,
         isChecking := true, lastChecked := none }, []) :=
  runAll_single_flight [{ id := "g", url := "https://g.com" }]
    (fun s => pendingPlaceholder s.id 0) 5
    { results := [], refreshingIds := [], isCheckingRef := true,
      isChecking := true, lastChecked := none } rfl

/-- Claim C5: handleCheckAll processes the site collection as
fixed-size batches taken in order: its event trace is exactly, batch by
batch, a concurrent dispatch of the whole batch, then (only after the
batch has fully resolved) the merge of its results into the store and
the removal of its ids from the refreshing set; the batches partition
the site list in order, each batch has at most batchSize sites, and
after any prefix of the trace at most batchSize probes are unresolved
simultaneously. -/
theorem runAll_sequential_batches (sites : List SiteConfig)
    (probe : SiteConfig → CheckResult) (now : Nat) (st : AppState)
    (h : st.isCheckingRef = false) :
    (handleCheckAll sites probe now st).2 =
      ((sliceBatches sites).map (batchEvents probe)).flatten ∧
    (sliceBatches sites).flatten = sites ∧
    (∀ b ∈ sliceBatches sites, b.length ≤ batchSize) ∧
    (∀ n, inflightAfter (((handleCheckAll sites probe now st).2).take n) ≤
      batchSize) := by
  have htr : (handleCheckAll sites probe now st).2 =
      ((sliceBatches sites).map (batchEvents probe)).flatten := by
    simp [handleCheckAll, h, runBatches_trace]
  refine ⟨htr, sliceBatches_flatten sites,
    fun b hb => sliceBatches_mem_length b sites hb, fun n => ?_⟩
  rw [htr]
  exact inflight_flatten_le probe _
    (fun b hb => sliceBatches_mem_length b sites hb) n

/-- Witness for C5 at a concrete input: seven sites split into a batch
of six and a batch of one, whose flattening restores the site list, and
the in-flight count after one event stays within the bound. -/
theorem runAll_sequential_batches_witness :
    (sliceBatches
        [{ id := "s1", url := "u1" }, { id := "s2", url := "u2" },
         { id := "s3", url := "u3" }, { id := "s4", url := "u4" },
         { id := "s5", url := "u5" }, { id := "s6", url := "u6" },
         { id := "s7", url := "u7" }]).flatten =
      [{ id := "s1", url := "u1" }, { id := "s2", url := "u2" },
       { id := "s3", url := "u3" }, { id := "s4", url := "u4" },
       { id := "s5", url := "u5" }, { id := "s6", url := "u6" },
       { id := "s7", url := "u7" }] ∧
    inflightAfter
        (((handleCheckAll
            [{ id := "s1", url := "u1" }, { id := "s2", url := "u2" },
             { id := "s3", url := "u3" }, { id := "s4", url := "u4" },
             { id := "s5", url := "u5" }, { id := "s6", url := "u6" },
             { id := "s7", url := "u7" }]
            (fun s => pendingPlaceholder s.id 0) 5
            { results := [], refreshingIds := [], isCheckingRef := false,
              isChecking := false, lastChecked := none }).2).take 1) ≤
      batchSize := by
  have h := runAll_sequential_batches
    [{ id := "s1", url := "u1" }, { id := "s2", url := "u2" },
     { id := "s3", url := "u3" }, { id := "s4", url := "u4" },
     { id := "s5", url := "u5" }, { id := "s6", url := "u6" },
     { id := "s7", url := "u7" }]
    (fun s => pendingPlaceholder s.id 0) 5
    { results := [], refreshingIds := [], isCheckingRef := false,
      isChecking := false, lastChecked := none } rfl
  exact ⟨h.2.1, h.2.2.2 1⟩

/-- Claim C6: anti-flicker.  For a siteId that already has a stored
CheckResult, neither handleCheckAll nor handleCheckSite ever overwrites
it with a PENDING placeholder: the placeholder phase leaves the entry
untouched and changes only entries that were missing (installing
exactly the PENDING/latency-0/timestamp-now placeholder); every store
state reached during the batch run still maps the siteId either to the
old result or to the newly landed probe result, and probe results are
never PENDING; the final store of handleCheckAll is one of those
states; and on the single-site path the placeholder step is the
identity on the store and the entry next changes directly to the probe
result. -/
theorem runAll_anti_flicker (sites : List SiteConfig)
    (env : SiteConfig → ProbeEnv) (now : Nat) (st : AppState)
    (sid : String) (r : CheckResult)
    (h : objGet st.results sid = some r) :
    objGet (installPending st.results sites now) sid = some r ∧
    (∀ s, objGet (installPending st.results sites now) s ≠ objGet st.results s →
        objGet st.results s = none ∧
        objGet (installPending st.results sites now) s =
          some (pendingPlaceholder s now)) ∧
    (∀ σ ∈ installPending st.results sites now ::
        batchStores (probeOf env) (sliceBatches sites)
          (installPending st.results sites now),
        objGet σ sid = some r ∨
        ∃ site ∈ sites, site.id = sid ∧
          objGet σ sid = some (probeOf env site)) ∧
    (∀ site, (probeOf env site).status ≠ ConnectivityStatus.PENDING) ∧
    (st.isCheckingRef = false →
        (handleCheckAll sites (probeOf env) now st).1.results ∈
          installPending st.results sites now ::
            batchStores (probeOf env) (sliceBatches sites)
              (installPending st.results sites now)) ∧
    (installPendingOne st.results sid now = st.results ∧
      ∀ site : SiteConfig, site.id = sid →
        objGet (handleCheckSite site (probeOf env) now st).results sid =
          some (probeOf env site)) := by
  have hkeep : objGet (installPending st.results sites now) sid = some r :=
    objGet_installPending st.results sites now sid r h
  refine ⟨hkeep, ?_, ?_, probeOf_ne_pending env, ?_, ?_, ?_⟩
  · intro s hne
    rcases installPending_changes st.results sites now s with h1 | h1
    · exact absurd h1 hne
    · exact h1
  · intro σ hσ
    rcases List.mem_cons.1 hσ with h1 | h1
    · subst h1; left; exact hkeep
    · refine batchStores_keeps env sites (sliceBatches sites) ?_ _ sid r
        (Or.inl hkeep) σ h1
      intro b hb x hx
      exact sliceBatches_mem_site x b sites hb hx
  · intro hg
    have hguard : ¬ st.isCheckingRef = true := by rw [hg]; exact Bool.false_ne_true
    show (if st.isCheckingRef = true then _ else _ : AppState × List RunEvent).1.results ∈ _
    rw [if_neg hguard]
    rw [runBatches_results]
    exact foldl_merge_mem (probeOf env) (sliceBatches sites)
      (installPending st.results sites now)
  · unfold installPendingOne
    rw [h]
    simp
  · intro site hsite
    show objGet (objSet (installPendingOne st.results site.id now) site.id
      (probeOf env site)) sid = some (probeOf env site)
    rw [← hsite]
    exact objGet_objSet_self _ site.id _

/-- Witness for C6 at a concrete input: a store holding a SUCCESS
result for site a keeps that entry through the placeholder phase of a
run over site a, and the single-site placeholder step is the identity
on the store. -/
theorem runAll_anti_flicker_witness :
    objGet
        (installPending
          [("a", { siteId := "a", status := ConnectivityStatus.SUCCESS,
                   latency := 100, timestamp := 1 })]
          [{ id := "a", url := "https://a.com" }] 9) "a" =
      some { siteId := "a", status := ConnectivityStatus.SUCCESS,
             latency := 100, timestamp := 1 } ∧
    installPendingOne
        [("a", { siteId := "a", status := ConnectivityStatus.SUCCESS,
                 latency := 100, timestamp := 1 })] "a" 9 =
      [("a", { siteId := "a", status := ConnectivityStatus.SUCCESS,
               latency := 100, timestamp := 1 })] := by
  have h := runAll_anti_flicker [{ id := "a", url := "https://a.com" }]
    (fun _ => ⟨none, .ok 5, .ok 5, 9⟩) 9
    { results := [("a", { siteId := "a", status := ConnectivityStatus.SUCCESS,
                          latency := 100, timestamp := 1 })],
      refreshingIds := [], isCheckingRef := false, isChecking := false,
      lastChecked := none }
    "a"
    { siteId := "a", status := ConnectivityStatus.SUCCESS,
      latency := 100, timestamp := 1 } rfl
  exact ⟨h.1, h.2.2.2.2.2.1⟩

/-- Claim C7: the result store invariant is preserved by every
operation: after handleCheckAll, after handleCheckSite, and after the
placeholder installation, the store still has at most one entry per
siteId (unique keys), every entry stored under its own siteId, every
latency non-negative, and latency 0 whenever the status is ERROR or
TIMEOUT; and writing a result overwrites the previous entry for its
siteId. -/
theorem result_store_invariant (sites : List SiteConfig)
    (env : SiteConfig → ProbeEnv) (now : Nat) (st : AppState)
    (site : SiteConfig) (h : StoreInv st.results) :
    StoreInv ((handleCheckAll sites (probeOf env) now st).1.results) ∧
    StoreInv ((handleCheckSite site (probeOf env) now st).results) ∧
    StoreInv (installPending st.results sites now) ∧
    (∀ v : CheckResult, objGet (objSet st.results v.siteId v) v.siteId = some v) := by
  refine ⟨?_, ?_, StoreInv_installPending st.results sites now h,
    fun v => objGet_objSet_self st.results v.siteId v⟩
  · by_cases hg : st.isCheckingRef = true
    · show (if st.isCheckingRef = true then _ else _ : AppState × List RunEvent).1.results
        |> StoreInv
      rw [if_pos hg]
      exact h
    · show (if st.isCheckingRef = true then _ else _ : AppState × List RunEvent).1.results
        |> StoreInv
      rw [if_neg hg]
      exact StoreInv_runBatches (probeOf env) (probeOf_valid env)
        (sliceBatches sites) _ (StoreInv_installPending st.results sites now h)
  · show StoreInv (objSet (installPendingOne st.results site.id now) site.id
      (probeOf env site))
    exact StoreInv_objSet _ site.id _
      (StoreInv_installPendingOne st.results site.id now h)
      (probeOf_siteId env site) (probeOf_valid env site)

/-- Witness for C7 at a concrete input: starting from a singleton valid
store, a full run over one site and a single-site check both preserve
the store invariant. -/
theorem result_store_invariant_witness :
    StoreInv ((handleCheckAll [{ id := "b", url := "https://b.com" }]
        (probeOf fun _ => ⟨some "https://b.com", .ok 80, .ok 80, 3⟩) 3
        { results := [("a", { siteId := "a",
                              status := ConnectivityStatus.TIMEOUT,
                              latency := 0, timestamp := 1 })],
          refreshingIds := [], isCheckingRef := false, isChecking := false,
          lastChecked := none }).1.results) ∧
    StoreInv (installPending
      [("a", { siteId := "a", status := ConnectivityStatus.TIMEOUT,
               latency := 0, timestamp := 1 })]
      [{ id := "b", url := "https://b.com" }] 3) := by
  have h := result_store_invariant [{ id := "b", url := "https://b.com" }]
    (fun _ => ⟨some "https://b.com", .ok 80, .ok 80, 3⟩) 3
    { results := [("a", { siteId := "a", status := ConnectivityStatus.TIMEOUT,
                          latency := 0, timestamp := 1 })],
      refreshingIds := [], isCheckingRef := false, isChecking := false,
      lastChecked := none }
    { id := "b", url := "https://b.com" } (by decide)
  exact ⟨h.1, h.2.2.1⟩

end Tonglema
